import Mathlib

/-!
# Verification of the currency-exchange server's command layer

Shallow embedding of `server.c`: the rate table, the in-memory `DB`
snapshot (users and accounts), the command handlers
(`cmd_register`, `cmd_login`, `cmd_create_account`, `cmd_balances`,
`cmd_deposit_withdraw`, `cmd_exchange`), the store load/save pair
(`db_load`, `db_save`), and the per-connection dispatch step.

Monetary amounts (C `double`) are modelled as exact rationals `ℚ`;
the `%.2f` rendering used by the store writer is modelled by `fmt2`,
rounding to two decimal places.  The `rand()` stream used for account
ids is modelled as an explicit sequence `rands : Nat → Nat` of the
values returned by successive `rand()` calls.
-/

/-- The three supported currencies (C enum `Currency`). -/
inductive Currency
  | USD
  | EUR
  | GBP
deriving DecidableEq, Repr

/-- `1 EUR = 1.10 USD` (C constant `eur_to_usd = 1.10`). -/
def eur_to_usd : ℚ := 11 / 10

/-- `1 EUR = 0.85 GBP` (C constant `eur_to_gbp = 0.85`). -/
def eur_to_gbp : ℚ := 17 / 20

/-- C function `rate`: 1 unit of `fromC` is worth `rate fromC toC` units of
`toC`, converting through EUR as the pivot. -/
def rate (fromC toC : Currency) : ℚ :=
  if fromC = toC then 1
  else
    let val_in_eur : ℚ :=
      if fromC = Currency.EUR then 1
      else if fromC = Currency.USD then 1 / eur_to_usd
      else 1 / eur_to_gbp
    if toC = Currency.EUR then val_in_eur
    else if toC = Currency.USD then val_in_eur * eur_to_usd
    else val_in_eur * eur_to_gbp

/-- C struct `User`. -/
structure User where
  username : String
  password : String
deriving DecidableEq, Repr

/-- The three per-currency balances of an account (C array `bal[CUR_COUNT]`). -/
structure Balances where
  usd : ℚ
  eur : ℚ
  gbp : ℚ
deriving DecidableEq, Repr

/-- Read one balance slot (C `a->bal[cur]`). -/
def Balances.get (b : Balances) : Currency → ℚ
  | Currency.USD => b.usd
  | Currency.EUR => b.eur
  | Currency.GBP => b.gbp

/-- Write one balance slot (C `a->bal[cur] = v`). -/
def Balances.set (b : Balances) (c : Currency) (v : ℚ) : Balances :=
  match c with
  | Currency.USD => { b with usd := v }
  | Currency.EUR => { b with eur := v }
  | Currency.GBP => { b with gbp := v }

/-- C struct `Account`.  `ownerCount` is represented implicitly as
`owners.length`; after every load or creation the C field equals the
number of filled owner slots. -/
structure Account where
  id : String
  isJoint : Bool
  owners : List String
  bal : Balances
deriving DecidableEq, Repr

/-- Placeholder account used to read `accounts[idx]` at a known-valid index. -/
def defaultAccount : Account :=
  { id := "", isJoint := false, owners := [], bal := ⟨0, 0, 0⟩ }

/-- Placeholder user used to read `users[idx]` at a known-valid index. -/
def defaultUser : User := { username := "", password := "" }

/-- C struct `DB`: the in-memory snapshot of the whole store. -/
structure DB where
  users : List User
  accounts : List Account
deriving DecidableEq, Repr

def MAX_USERS : Nat := 200
def MAX_ACCOUNTS : Nat := 500
def MAX_OWNERS : Nat := 5

/-- Index of the first element satisfying `p` (C linear scans that
return an index or `-1`, modelled as `Option Nat`). -/
def find_index (p : α → Bool) : List α → Option Nat
  | [] => none
  | x :: xs => if p x then some 0 else (find_index p xs).map (· + 1)

/-- C `user_index`: index of a username in `db->users`, or none. -/
def user_index (db : DB) (username : String) : Option Nat :=
  find_index (fun u => u.username == username) db.users

/-- C `account_index`: index of an account id in `db->accounts`, or none. -/
def account_index (db : DB) (accid : String) : Option Nat :=
  find_index (fun a => a.id == accid) db.accounts

/-- C `is_owner`: whether `username` occurs in the account's owner list. -/
def is_owner (a : Account) (username : String) : Bool :=
  a.owners.contains username

/-- C `parse_currency`: resolve a currency name, scanning
`CUR_NAMES` in order. -/
def parse_currency (s : String) : Option Currency :=
  if s = "USD" then some Currency.USD
  else if s = "EUR" then some Currency.EUR
  else if s = "GBP" then some Currency.GBP
  else none

/-- Outcome of one command: the first response line, `OK ...` or `ERR ...`.
Numeric echoes in the C response text (formatted amounts, rates) are elided. -/
inductive CmdResult
  | ok (msg : String)
  | err (msg : String)
deriving DecidableEq, Repr

/-- C `cmd_register`: add a user unless the name is taken or the user
limit is reached.  Returns the response and the persisted snapshot. -/
def cmd_register (db : DB) (u p : String) : CmdResult × DB :=
  if user_index db u ≠ none then
    (CmdResult.err "User already exists", db)
  else if MAX_USERS ≤ db.users.length then
    (CmdResult.err "User limit reached", db)
  else
    (CmdResult.ok "Registered", { db with users := db.users ++ [⟨u, p⟩] })

/-- C `cmd_login`: check credentials; on success the session's
`loggedUser` buffer is overwritten with `u`, otherwise left as it was.
Returns the response and the new `loggedUser`. -/
def cmd_login (db : DB) (u p loggedUser : String) : CmdResult × String :=
  match user_index db u with
  | none => (CmdResult.err "No such user", loggedUser)
  | some idx =>
    if (db.users.getD idx defaultUser).password ≠ p then
      (CmdResult.err "Wrong password", loggedUser)
    else
      (CmdResult.ok "Logged in", u)

/-- The owner-parsing loop of C `cmd_create_account`: consume comma
tokens while fewer than `MAX_OWNERS` owners are collected, failing on
the first token that is not a registered username.  Tokens after the
fifth are never examined. -/
def collect_owners (db : DB) : List String → Nat → Except String (List String)
  | [], _ => Except.ok []
  | tok :: rest, ownerCount =>
    if ownerCount < MAX_OWNERS then
      if user_index db tok = none then
        Except.error "One or more owners do not exist (REGISTER them first)"
      else
        match collect_owners db rest (ownerCount + 1) with
        | Except.error e => Except.error e
        | Except.ok more => Except.ok (tok :: more)
    else
      Except.ok []

/-- C `gen_account_id` loop body: up to `fuel` further tries, the next
try being call number `tries` of `rand()`. -/
def gen_tries (db : DB) (rands : Nat → Nat) : Nat → Nat → Option String
  | _, 0 => none
  | tries, fuel + 1 =>
    let out := "ACC" ++ toString (1000 + rands tries % 9000)
    if account_index db out = none then some out
    else gen_tries db rands (tries + 1) fuel

/-- C `gen_account_id`: at most 10000 attempts to draw an id of the
form `ACC<1000..9999>` that does not collide with the snapshot. -/
def gen_account_id (db : DB) (rands : Nat → Nat) : Option String :=
  gen_tries db rands 0 10000

/-- C `cmd_create_account`: create an IND or JOINT account owned by
the comma-separated owners, subject to the owner rules. -/
def cmd_create_account (db : DB) (loggedUser ty : String)
    (ownersToks : List String) (rands : Nat → Nat) : CmdResult × DB :=
  if loggedUser = "" then
    (CmdResult.err "Please LOGIN first", db)
  else if ty ≠ "IND" ∧ ty ≠ "JOINT" then
    (CmdResult.err "type must be IND or JOINT", db)
  else
    let isJoint : Bool := ty = "JOINT"
    if MAX_ACCOUNTS ≤ db.accounts.length then
      (CmdResult.err "Account limit reached", db)
    else
      match gen_account_id db rands with
      | none => (CmdResult.err "Could not generate account id", db)
      | some id =>
        match collect_owners db ownersToks 0 with
        | Except.error e => (CmdResult.err e, db)
        | Except.ok owners =>
          if owners.length = 0 then
            (CmdResult.err "ownersCSV is empty", db)
          else if ¬ isJoint ∧ owners.length ≠ 1 then
            (CmdResult.err "IND account must have exactly 1 owner", db)
          else if ¬ isJoint ∧ owners.headD "" ≠ loggedUser then
            (CmdResult.err "IND account owner must be the logged-in user", db)
          else if isJoint ∧ ¬ owners.contains loggedUser then
            (CmdResult.err "JOINT account must include logged-in user among owners", db)
          else
            (CmdResult.ok ("Created " ++ id),
             { db with accounts :=
                 db.accounts ++ [{ id := id, isJoint := isJoint,
                                   owners := owners, bal := ⟨0, 0, 0⟩ }] })

/-- C `cmd_balances`: read-only; report the three balances of an owned
account.  Never saves, so the snapshot is returned untouched. -/
def cmd_balances (db : DB) (loggedUser accid : String) : CmdResult × DB :=
  if loggedUser = "" then
    (CmdResult.err "Please LOGIN first", db)
  else
    match account_index db accid with
    | none => (CmdResult.err "No such account", db)
    | some idx =>
      let a := db.accounts.getD idx defaultAccount
      if ¬ is_owner a loggedUser then
        (CmdResult.err "Not an owner", db)
      else
        (CmdResult.ok "balances", db)

/-- C `cmd_deposit_withdraw`: shared handler for DEPOSIT and WITHDRAW,
selected by the `op` string exactly as dispatched from `handleClient`. -/
def cmd_deposit_withdraw (db : DB) (loggedUser op accid curS : String)
    (amount : ℚ) : CmdResult × DB :=
  if loggedUser = "" then
    (CmdResult.err "Please LOGIN first", db)
  else if amount ≤ 0 then
    (CmdResult.err "amount must be > 0", db)
  else
    match parse_currency curS with
    | none => (CmdResult.err "Unknown currency (USD/EUR/GBP)", db)
    | some cur =>
      match account_index db accid with
      | none => (CmdResult.err "No such account", db)
      | some idx =>
        let a := db.accounts.getD idx defaultAccount
        if ¬ is_owner a loggedUser then
          (CmdResult.err "Not an owner", db)
        else if op = "DEPOSIT" then
          let a1 := { a with bal := a.bal.set cur (a.bal.get cur + amount) }
          (CmdResult.ok "Done", { db with accounts := db.accounts.set idx a1 })
        else if op = "WITHDRAW" then
          if a.bal.get cur < amount then
            (CmdResult.err "Insufficient funds", db)
          else
            let a1 := { a with bal := a.bal.set cur (a.bal.get cur - amount) }
            (CmdResult.ok "Done", { db with accounts := db.accounts.set idx a1 })
        else
          (CmdResult.err "Internal op", db)

/-- C `cmd_exchange`: convert `amount` of `fromS` into `toS` on one
account, at the fixed `rate`. -/
def cmd_exchange (db : DB) (loggedUser accid fromS toS : String)
    (amount : ℚ) : CmdResult × DB :=
  if loggedUser = "" then
    (CmdResult.err "Please LOGIN first", db)
  else if amount ≤ 0 then
    (CmdResult.err "amount must be > 0", db)
  else
    match parse_currency fromS, parse_currency toS with
    | none, _ => (CmdResult.err "Unknown currency (USD/EUR/GBP)", db)
    | some _, none => (CmdResult.err "Unknown currency (USD/EUR/GBP)", db)
    | some fromC, some toC =>
      if fromC = toC then
        (CmdResult.err "FROMCUR and TOCUR must differ", db)
      else
        match account_index db accid with
        | none => (CmdResult.err "No such account", db)
        | some idx =>
          let a := db.accounts.getD idx defaultAccount
          if ¬ is_owner a loggedUser then
            (CmdResult.err "Not an owner", db)
          else if a.bal.get fromC < amount then
            (CmdResult.err "Insufficient funds", db)
          else
            let r := rate fromC toC
            let converted := amount * r
            let b1 := a.bal.set fromC (a.bal.get fromC - amount)
            let b2 := b1.set toC (b1.get toC + converted)
            let a1 := { a with bal := b2 }
            (CmdResult.ok "Exchanged",
             { db with accounts := db.accounts.set idx a1 })

/-- One parsed client command, as dispatched by C `handleClient` after
`sscanf` succeeds on the argument line. -/
inductive Cmd
  | register (u p : String)
  | login (u p : String)
  | create_account (ty : String) (ownersToks : List String)
  | balances (accid : String)
  | deposit (accid curS : String) (amount : ℚ)
  | withdraw (accid curS : String) (amount : ℚ)
  | exchange (accid fromS toS : String) (amount : ℚ)

/-- One iteration of the C `handleClient` loop on a parsed command:
returns the response, the persisted snapshot after the command, and the
session's `loggedUser` after the command. -/
def dispatch (db : DB) (loggedUser : String) (rands : Nat → Nat) :
    Cmd → CmdResult × DB × String
  | Cmd.register u p =>
    let r := cmd_register db u p
    (r.1, r.2, loggedUser)
  | Cmd.login u p =>
    let r := cmd_login db u p loggedUser
    (r.1, db, r.2)
  | Cmd.create_account ty ownersToks =>
    let r := cmd_create_account db loggedUser ty ownersToks rands
    (r.1, r.2, loggedUser)
  | Cmd.balances accid =>
    let r := cmd_balances db loggedUser accid
    (r.1, r.2, loggedUser)
  | Cmd.deposit accid curS amount =>
    let r := cmd_deposit_withdraw db loggedUser "DEPOSIT" accid curS amount
    (r.1, r.2, loggedUser)
  | Cmd.withdraw accid curS amount =>
    let r := cmd_deposit_withdraw db loggedUser "WITHDRAW" accid curS amount
    (r.1, r.2, loggedUser)
  | Cmd.exchange accid fromS toS amount =>
    let r := cmd_exchange db loggedUser accid fromS toS amount
    (r.1, r.2, loggedUser)

/-- One line of the store file, as classified by C `db_load_locked`:
a `USER` record, an `ACC` record (with the raw `ownerCount` field and
the comma-split owner tokens), or any line that fails to parse. -/
inductive FileLine
  | userLine (u p : String)
  | accLine (id ty : String) (ownerCount : Int) (ownersToks : List String)
      (b0 b1 b2 : ℚ)
  | badLine
deriving DecidableEq, Repr

/-- Effect of one parsed line on the snapshot being built
(C `db_load_locked` loop body).  A record past the capacity limit is
skipped; an `ACC` record keeps at most `min ownerCount MAX_OWNERS`
owner tokens. -/
def db_load_step (db : DB) : FileLine → DB
  | FileLine.userLine u p =>
    if MAX_USERS ≤ db.users.length then db
    else { db with users := db.users ++ [⟨u, p⟩] }
  | FileLine.accLine id ty oc toks b0 b1 b2 =>
    if MAX_ACCOUNTS ≤ db.accounts.length then db
    else
      { db with accounts := db.accounts ++
          [{ id := id, isJoint := ty == "JOINT",
             owners := toks.take (min oc (MAX_OWNERS : Int)).toNat,
             bal := ⟨b0, b1, b2⟩ }] }
  | FileLine.badLine => db

/-- C `db_load_locked`: fold the file's lines over an empty snapshot. -/
def db_load (lines : List FileLine) : DB :=
  lines.foldl db_load_step { users := [], accounts := [] }

/-- The `%.2f` rendering used by C `db_save_locked`: a rational rounded
to two decimal places. -/
def fmt2 (q : ℚ) : ℚ := (round (q * 100) : ℤ) / 100

/-- Serialization of one user (C `dprintf` of a `USER` line). -/
def save_user (u : User) : FileLine := FileLine.userLine u.username u.password

/-- Serialization of one account (C `dprintf` of an `ACC` line): the
type token, the owner count, the owner CSV (`-` when empty), and the
three balances rendered with `%.2f`. -/
def save_account (a : Account) : FileLine :=
  FileLine.accLine a.id (if a.isJoint then "JOINT" else "IND")
    (a.owners.length : Int)
    (if a.owners.isEmpty then ["-"] else a.owners)
    (fmt2 a.bal.usd) (fmt2 a.bal.eur) (fmt2 a.bal.gbp)

/-- C `db_save_locked`: all `USER` lines, then all `ACC` lines. -/
def db_save (db : DB) : List FileLine :=
  db.users.map save_user ++ db.accounts.map save_account

/-- An account with its balances rounded to two decimals, which is what
a save/load round trip does to it. -/
def round_account (a : Account) : Account :=
  { a with bal := ⟨fmt2 a.bal.usd, fmt2 a.bal.eur, fmt2 a.bal.gbp⟩ }

/-- All balances of all accounts of a snapshot are non-negative. -/
def NonNegDB (db : DB) : Prop :=
  ∀ a ∈ db.accounts, 0 ≤ a.bal.usd ∧ 0 ≤ a.bal.eur ∧ 0 ≤ a.bal.gbp

/-- The capacity facts every loaded snapshot satisfies. -/
def WfDB (db : DB) : Prop :=
  db.users.length ≤ MAX_USERS ∧ db.accounts.length ≤ MAX_ACCOUNTS ∧
    ∀ a ∈ db.accounts, a.owners.length ≤ MAX_OWNERS

/-! ## Helper lemmas -/

theorem find_index_lt_length {p : α → Bool} :
    ∀ {l : List α} {i : Nat}, find_index p l = some i → i < l.length := by
  intro l
  induction l with
  | nil => intro i h; simp [find_index] at h
  | cons x xs ih =>
    intro i h
    simp only [find_index] at h
    by_cases hx : p x
    · rw [if_pos hx] at h
      have : (0 : Nat) = i := Option.some.inj h
      subst this
      simp
    · rw [if_neg hx] at h
      obtain ⟨j, hj, hji⟩ := Option.map_eq_some'.mp h
      have := ih hj
      subst hji
      simp only [List.length_cons]
      omega

theorem find_index_getD {p : α → Bool} {d : α} :
    ∀ {l : List α} {i : Nat}, find_index p l = some i → p (l.getD i d) = true := by
  intro l
  induction l with
  | nil => intro i h; simp [find_index] at h
  | cons x xs ih =>
    intro i h
    simp only [find_index] at h
    by_cases hx : p x
    · rw [if_pos hx] at h
      have : (0 : Nat) = i := Option.some.inj h
      subst this
      simpa using hx
    · rw [if_neg hx] at h
      obtain ⟨j, hj, hji⟩ := Option.map_eq_some'.mp h
      subst hji
      simpa using ih hj

theorem list_getD_mem {d : α} :
    ∀ {l : List α} {i : Nat}, i < l.length → l.getD i d ∈ l := by
  intro l
  induction l with
  | nil => intro i h; simp at h
  | cons x xs ih =>
    intro i h
    cases i with
    | zero => simp
    | succ j =>
      simp only [List.length_cons] at h
      have : j < xs.length := by omega
      simpa using Or.inr (ih this)

theorem list_getD_set_self {d : α} :
    ∀ {l : List α} {i : Nat} (a : α), i < l.length → (l.set i a).getD i d = a := by
  intro l
  induction l with
  | nil => intro i a h; simp at h
  | cons x xs ih =>
    intro i a h
    cases i with
    | zero => simp
    | succ j =>
      simp only [List.length_cons] at h
      have : j < xs.length := by omega
      simpa using ih a this

theorem list_getD_set_ne {d : α} :
    ∀ {l : List α} {i : Nat} (j : Nat) (a : α), i ≠ j →
      (l.set i a).getD j d = l.getD j d := by
  intro l
  induction l with
  | nil => intro i j a _; simp
  | cons x xs ih =>
    intro i j a hij
    cases i with
    | zero =>
      cases j with
      | zero => exact absurd rfl hij
      | succ k => simp
    | succ i2 =>
      cases j with
      | zero => simp
      | succ k =>
        have : i2 ≠ k := by omega
        simpa using ih k a this

theorem list_mem_set :
    ∀ {l : List α} {i : Nat} {a x : α}, x ∈ l.set i a → x ∈ l ∨ x = a := by
  intro l
  induction l with
  | nil => intro i a x h; simp at h
  | cons y ys ih =>
    intro i a x h
    cases i with
    | zero =>
      simp only [List.set] at h
      rcases List.mem_cons.mp h with h1 | h1
      · exact Or.inr h1
      · exact Or.inl (List.mem_cons_of_mem y h1)
    | succ j =>
      simp only [List.set] at h
      rcases List.mem_cons.mp h with h1 | h1
      · exact Or.inl (h1 ▸ List.mem_cons_self y ys)
      · rcases ih h1 with h2 | h2
        · exact Or.inl (List.mem_cons_of_mem y h2)
        · exact Or.inr h2

theorem Balances.get_set_self (b : Balances) (c : Currency) (v : ℚ) :
    (b.set c v).get c = v := by
  cases c <;> rfl

theorem Balances.get_set_ne (b : Balances) {c c2 : Currency} (v : ℚ)
    (h : c2 ≠ c) : (b.set c v).get c2 = b.get c2 := by
  cases c <;> cases c2 <;> first
    | rfl
    | exact absurd rfl h

theorem rate_pos (a b : Currency) : 0 < rate a b := by
  cases a <;> cases b <;> norm_num [rate, eur_to_usd, eur_to_gbp] <;>
    split_ifs <;> norm_num

/-! ## C2: algebra of the rate table -/

/-- C2: the rate table is a fixed pure function satisfying
`rate a a = 1`, the pivot identity `rate a b = rate a EUR * rate EUR b`,
and the inversion identity `rate a b * rate b a = 1` — all exactly, in
the idealized rational model of the hardcoded constants, hence in
particular within display-rounding tolerance. -/
theorem rate_pivot_algebra (a b : Currency) :
    rate a a = 1 ∧
    rate a b = rate a Currency.EUR * rate Currency.EUR b ∧
    rate a b * rate b a = 1 := by
  cases a <;> cases b <;>
    refine ⟨?_, ?_, ?_⟩ <;> norm_num [rate, eur_to_usd, eur_to_gbp] <;>
      split_ifs <;> norm_num

/-! ## C1: EXCHANGE conservation -/

/-- C1: a successful EXCHANGE of amount X from currency A to currency B
on an owned, sufficiently funded account returns OK and produces, as the
single snapshot it saves, a ledger in which that account's A balance
dropped by exactly X, its B balance rose by exactly X × rate(A,B), its
third balance and identity are untouched, every other account is
untouched, and the user table is untouched. -/
theorem exchange_updates_balances
    (db : DB) (lu accid fromS toS : String) (amount : ℚ)
    (fromC toC : Currency) (idx : Nat) (a : Account)
    (hlu : ¬ lu = "")
    (hamt : 0 < amount)
    (hfrom : parse_currency fromS = some fromC)
    (hto : parse_currency toS = some toC)
    (hne : fromC ≠ toC)
    (hidx : account_index db accid = some idx)
    (ha : db.accounts.getD idx defaultAccount = a)
    (hown : is_owner a lu = true)
    (hfunds : amount ≤ a.bal.get fromC) :
    (cmd_exchange db lu accid fromS toS amount).1 = CmdResult.ok "Exchanged" ∧
    ((cmd_exchange db lu accid fromS toS amount).2.accounts.getD idx
        defaultAccount).bal.get fromC = a.bal.get fromC - amount ∧
    ((cmd_exchange db lu accid fromS toS amount).2.accounts.getD idx
        defaultAccount).bal.get toC = a.bal.get toC + amount * rate fromC toC ∧
    (∀ c, c ≠ fromC → c ≠ toC →
      ((cmd_exchange db lu accid fromS toS amount).2.accounts.getD idx
          defaultAccount).bal.get c = a.bal.get c) ∧
    ((cmd_exchange db lu accid fromS toS amount).2.accounts.getD idx
        defaultAccount).id = a.id ∧
    ((cmd_exchange db lu accid fromS toS amount).2.accounts.getD idx
        defaultAccount).owners = a.owners ∧
    (∀ j, j ≠ idx →
      (cmd_exchange db lu accid fromS toS amount).2.accounts.getD j defaultAccount
        = db.accounts.getD j defaultAccount) ∧
    (cmd_exchange db lu accid fromS toS amount).2.accounts.length
      = db.accounts.length ∧
    (cmd_exchange db lu accid fromS toS amount).2.users = db.users := by
  have hlen : idx < db.accounts.length := find_index_lt_length hidx
  have hred : cmd_exchange db lu accid fromS toS amount =
      (CmdResult.ok "Exchanged",
       { db with accounts := (db.accounts.set idx
           { a with bal := ((a.bal.set fromC (a.bal.get fromC - amount)).set toC
               ((a.bal.set fromC (a.bal.get fromC - amount)).get toC
                 + amount * rate fromC toC)) }) }) := by
    unfold cmd_exchange
    rw [if_neg hlu, if_neg (not_le.mpr hamt), hfrom, hto]
    simp only [if_neg hne]
    rw [hidx]
    simp only [ha, hown]
    rw [if_neg (by simp), if_neg (not_lt.mpr hfunds)]
  rw [hred]
  refine ⟨rfl, ?_, ?_, ?_, ?_, ?_, ?_, ?_, rfl⟩
  · rw [show ({ db with accounts := db.accounts.set idx _ } : DB).accounts
        = db.accounts.set idx _ from rfl,
      list_getD_set_self _ hlen]
    rw [Balances.get_set_ne _ _ hne, Balances.get_set_self]
  · rw [show ({ db with accounts := db.accounts.set idx _ } : DB).accounts
        = db.accounts.set idx _ from rfl,
      list_getD_set_self _ hlen]
    rw [Balances.get_set_self, Balances.get_set_ne _ _ (Ne.symm hne)]
  · intro c hcf hct
    rw [show ({ db with accounts := db.accounts.set idx _ } : DB).accounts
        = db.accounts.set idx _ from rfl,
      list_getD_set_self _ hlen]
    rw [Balances.get_set_ne _ _ hct, Balances.get_set_ne _ _ hcf]
  · rw [show ({ db with accounts := db.accounts.set idx _ } : DB).accounts
        = db.accounts.set idx _ from rfl,
      list_getD_set_self _ hlen]
  · rw [show ({ db with accounts := db.accounts.set idx _ } : DB).accounts
        = db.accounts.set idx _ from rfl,
      list_getD_set_self _ hlen]
  · intro j hj
    rw [show ({ db with accounts := db.accounts.set idx _ } : DB).accounts
        = db.accounts.set idx _ from rfl,
      list_getD_set_ne j _ (Ne.symm hj)]
  · simp

/-- Concrete account used by witnesses: alice's individual account with
100 USD. -/
def accW : Account :=
  { id := "ACC1234", isJoint := false, owners := ["alice"], bal := ⟨100, 0, 0⟩ }

/-- Concrete snapshot used by witnesses: one user, one account. -/
def dbW : DB :=
  { users := [⟨"alice", "pw1"⟩], accounts := [accW] }

/-- Witness for C1: alice exchanges 10 USD into EUR on her account. -/
theorem exchange_updates_balances_witness :
    (cmd_exchange dbW "alice" "ACC1234" "USD" "EUR" 10).1
      = CmdResult.ok "Exchanged" ∧
    ((cmd_exchange dbW "alice" "ACC1234" "USD" "EUR" 10).2.accounts.getD 0
        defaultAccount).bal.get Currency.USD = 90 ∧
    ((cmd_exchange dbW "alice" "ACC1234" "USD" "EUR" 10).2.accounts.getD 0
        defaultAccount).bal.get Currency.EUR
      = 10 * rate Currency.USD Currency.EUR ∧
    (cmd_exchange dbW "alice" "ACC1234" "USD" "EUR" 10).2.users = dbW.users := by
  have h := exchange_updates_balances dbW "alice" "ACC1234" "USD" "EUR" 10
      Currency.USD Currency.EUR 0 accW (by decide) (by norm_num) rfl rfl
      (by decide) (by decide) rfl (by decide)
      (by norm_num [accW, Balances.get])
  refine ⟨h.1, ?_, ?_, h.2.2.2.2.2.2.2.2⟩
  · rw [h.2.1]
    norm_num [accW, Balances.get]
  · rw [h.2.2.1]
    norm_num [accW, Balances.get]

/-! ## C3: balances stay non-negative -/

theorem balances_fields_set (b : Balances) (cur : Currency) (v : ℚ)
    (hb : 0 ≤ b.usd ∧ 0 ≤ b.eur ∧ 0 ≤ b.gbp) (hv : 0 ≤ v) :
    0 ≤ (b.set cur v).usd ∧ 0 ≤ (b.set cur v).eur ∧ 0 ≤ (b.set cur v).gbp := by
  cases cur
  · exact ⟨hv, hb.2.1, hb.2.2⟩
  · exact ⟨hb.1, hv, hb.2.2⟩
  · exact ⟨hb.1, hb.2.1, hv⟩

theorem balances_get_nonneg (b : Balances)
    (hb : 0 ≤ b.usd ∧ 0 ≤ b.eur ∧ 0 ≤ b.gbp) (c : Currency) : 0 ≤ b.get c := by
  cases c
  · exact hb.1
  · exact hb.2.1
  · exact hb.2.2

theorem getD_bal_nonneg (db : DB) (h : NonNegDB db) (i : Nat) :
    0 ≤ (db.accounts.getD i defaultAccount).bal.usd ∧
    0 ≤ (db.accounts.getD i defaultAccount).bal.eur ∧
    0 ≤ (db.accounts.getD i defaultAccount).bal.gbp := by
  by_cases hi : i < db.accounts.length
  · exact h _ (list_getD_mem hi)
  · rw [List.getD_eq_default _ _ (not_lt.mp hi)]
    exact ⟨le_refl 0, le_refl 0, le_refl 0⟩

theorem cmd_deposit_withdraw_nonneg (db : DB) (lu op accid curS : String)
    (amount : ℚ) (h : NonNegDB db) :
    NonNegDB (cmd_deposit_withdraw db lu op accid curS amount).2 := by
  simp only [cmd_deposit_withdraw]
  split
  · exact h
  split
  · exact h
  split
  · exact h
  split
  · exact h
  split
  · exact h
  split
  · rename_i cur heqc xi idx heqidx hown hop
    intro x hx
    rcases list_mem_set hx with hx1 | hx1
    · exact h x hx1
    · subst hx1
      have hb := getD_bal_nonneg db h idx
      refine balances_fields_set _ _ _ hb ?_
      exact add_nonneg (balances_get_nonneg _ hb cur)
        (le_of_lt (lt_of_not_le ‹¬ amount ≤ 0›))
  split
  · split
    · exact h
    · rename_i cur heqc xi idx heqidx hown hop1 hop2 hfunds
      intro x hx
      rcases list_mem_set hx with hx1 | hx1
      · exact h x hx1
      · subst hx1
        have hb := getD_bal_nonneg db h idx
        exact balances_fields_set _ _ _ hb
          (sub_nonneg.mpr (not_lt.mp hfunds))
  · exact h

theorem cmd_exchange_nonneg (db : DB) (lu accid fromS toS : String)
    (amount : ℚ) (h : NonNegDB db) :
    NonNegDB (cmd_exchange db lu accid fromS toS amount).2 := by
  simp only [cmd_exchange]
  split
  · exact h
  split
  · exact h
  split
  · exact h
  · exact h
  · split
    · exact h
    split
    · exact h
    split
    · exact h
    split
    · exact h
    · rename_i fromC toC heq1 heq2 hne xN idx heqidx hown hfunds
      intro x hx
      rcases list_mem_set hx with hx1 | hx1
      · exact h x hx1
      · subst hx1
        have hb := getD_bal_nonneg db h idx
        have hb1 := balances_fields_set _ fromC
          ((db.accounts.getD idx defaultAccount).bal.get fromC - amount) hb
          (sub_nonneg.mpr (not_lt.mp hfunds))
        refine balances_fields_set _ _ _ hb1 ?_
        refine add_nonneg (balances_get_nonneg _ hb1 toC) ?_
        exact mul_nonneg (le_of_lt (lt_of_not_le ‹¬ amount ≤ 0›))
          (le_of_lt (rate_pos fromC toC))

theorem cmd_create_account_nonneg (db : DB) (lu ty : String)
    (toks : List String) (rands : Nat → Nat) (h : NonNegDB db) :
    NonNegDB (cmd_create_account db lu ty toks rands).2 := by
  simp only [cmd_create_account]
  repeat' split
  all_goals try exact h
  intro x hx
  rcases List.mem_append.mp hx with hx1 | hx1
  · exact h x hx1
  · rcases List.mem_singleton.mp hx1 with rfl
    exact ⟨le_refl 0, le_refl 0, le_refl 0⟩

theorem cmd_register_nonneg (db : DB) (u p : String) (h : NonNegDB db) :
    NonNegDB (cmd_register db u p).2 := by
  simp only [cmd_register]
  split_ifs
  · exact h
  · exact h
  · intro a hmem
    exact h a hmem

/-- C3: every command of the dispatcher — succeeding or failing —
maps a snapshot whose balances are all non-negative to a snapshot whose
balances are all non-negative; in particular DEPOSIT, WITHDRAW,
EXCHANGE, CREATE_ACCOUNT and REGISTER preserve `NonNegDB`. -/
theorem balances_nonneg_preserved (db : DB) (lu : String) (rands : Nat → Nat)
    (c : Cmd) (h : NonNegDB db) : NonNegDB (dispatch db lu rands c).2.1 := by
  cases c with
  | register u p => exact cmd_register_nonneg db u p h
  | login u p => exact h
  | create_account ty toks => exact cmd_create_account_nonneg db lu ty toks rands h
  | balances accid =>
    simp only [dispatch, cmd_balances]
    repeat' split
    all_goals exact h
  | deposit accid curS amount =>
    exact cmd_deposit_withdraw_nonneg db lu "DEPOSIT" accid curS amount h
  | withdraw accid curS amount =>
    exact cmd_deposit_withdraw_nonneg db lu "WITHDRAW" accid curS amount h
  | exchange accid fromS toS amount =>
    exact cmd_exchange_nonneg db lu accid fromS toS amount h

/-- Witness for C3: a deposit on the concrete snapshot keeps all
balances non-negative. -/
theorem balances_nonneg_preserved_witness :
    NonNegDB (dispatch dbW "alice" (fun _ => 0)
      (Cmd.deposit "ACC1234" "USD" 5)).2.1 := by
  refine balances_nonneg_preserved dbW "alice" (fun _ => 0)
    (Cmd.deposit "ACC1234" "USD" 5) ?_
  intro a ha
  simp only [dbW, List.mem_singleton] at ha
  subst ha
  norm_num [accW]

/-! ## C4: failed validation never mutates the saved snapshot -/

/-- C4: a WITHDRAW or EXCHANGE whose amount exceeds the source balance
of an owned account answers `ERR Insufficient funds` and returns the
snapshot unchanged; and, in general, any command whose answer is an
error returns the persisted snapshot exactly as it was loaded — the
store is never saved partially mutated. -/
theorem insufficient_funds_no_mutation (db : DB) (lu : String)
    (rands : Nat → Nat) :
    (∀ accid curS cur idx (amount : ℚ), ¬ lu = "" → 0 < amount →
      parse_currency curS = some cur →
      account_index db accid = some idx →
      is_owner (db.accounts.getD idx defaultAccount) lu = true →
      (db.accounts.getD idx defaultAccount).bal.get cur < amount →
      cmd_deposit_withdraw db lu "WITHDRAW" accid curS amount
        = (CmdResult.err "Insufficient funds", db)) ∧
    (∀ accid fromS toS fromC toC idx (amount : ℚ), ¬ lu = "" → 0 < amount →
      parse_currency fromS = some fromC → parse_currency toS = some toC →
      fromC ≠ toC →
      account_index db accid = some idx →
      is_owner (db.accounts.getD idx defaultAccount) lu = true →
      (db.accounts.getD idx defaultAccount).bal.get fromC < amount →
      cmd_exchange db lu accid fromS toS amount
        = (CmdResult.err "Insufficient funds", db)) ∧
    (∀ c m, (dispatch db lu rands c).1 = CmdResult.err m →
      (dispatch db lu rands c).2.1 = db) := by
  refine ⟨?_, ?_, ?_⟩
  · intro accid curS cur idx amount hlu hamt hcur hidx hown hlt
    simp only [cmd_deposit_withdraw]
    rw [if_neg hlu, if_neg (not_le.mpr hamt), hcur]
    rw [hidx]
    simp only [hown]
    rw [if_neg (by simp)]
    rw [List.getD_eq_getElem?_getD] at hlt
    simp [hlt]
  · intro accid fromS toS fromC toC idx amount hlu hamt hfrom hto hne hidx hown hlt
    simp only [cmd_exchange]
    rw [if_neg hlu, if_neg (not_le.mpr hamt), hfrom, hto]
    simp only [if_neg hne]
    rw [hidx]
    simp only [hown]
    rw [if_neg (by simp), if_pos hlt]
  · intro c m
    cases c <;>
      simp only [dispatch, cmd_register, cmd_login, cmd_create_account,
        cmd_balances, cmd_deposit_withdraw, cmd_exchange] <;>
      repeat' split
    all_goals intro hc
    all_goals simp_all

/-- Witness for C4: withdrawing 500 USD from the 100-USD account fails
with `Insufficient funds` and leaves the snapshot untouched. -/
theorem insufficient_funds_no_mutation_witness :
    cmd_deposit_withdraw dbW "alice" "WITHDRAW" "ACC1234" "USD" 500
      = (CmdResult.err "Insufficient funds", dbW) :=
  (insufficient_funds_no_mutation dbW "alice" (fun _ => 0)).1 "ACC1234" "USD"
    Currency.USD 0 500 (by decide) (by norm_num) rfl rfl (by decide)
    ((by norm_num : (100 : ℚ) < 500))

/-! ## C5: non-owners are rejected without mutation -/

/-- C5: for an authenticated caller who is not a listed owner of an
existing account, BALANCES, DEPOSIT, WITHDRAW (any `op` string routed
through `cmd_deposit_withdraw`) and EXCHANGE all answer
`ERR Not an owner` and return the snapshot unchanged. -/
theorem non_owner_rejected (db : DB) (lu accid : String) (idx : Nat)
    (hlu : ¬ lu = "")
    (hidx : account_index db accid = some idx)
    (hown : is_owner (db.accounts.getD idx defaultAccount) lu = false) :
    cmd_balances db lu accid = (CmdResult.err "Not an owner", db) ∧
    (∀ op curS cur (amount : ℚ), 0 < amount →
      parse_currency curS = some cur →
      cmd_deposit_withdraw db lu op accid curS amount
        = (CmdResult.err "Not an owner", db)) ∧
    (∀ fromS toS fromC toC (amount : ℚ), 0 < amount →
      parse_currency fromS = some fromC →
      parse_currency toS = some toC →
      fromC ≠ toC →
      cmd_exchange db lu accid fromS toS amount
        = (CmdResult.err "Not an owner", db)) := by
  rw [List.getD_eq_getElem?_getD] at hown
  refine ⟨?_, ?_, ?_⟩
  · simp only [cmd_balances]
    rw [if_neg hlu, hidx]
    simp [hown]
  · intro op curS cur amount hamt hcur
    simp only [cmd_deposit_withdraw]
    rw [if_neg hlu, if_neg (not_le.mpr hamt), hcur, hidx]
    simp [hown]
  · intro fromS toS fromC toC amount hamt hfrom hto hne
    simp only [cmd_exchange]
    rw [if_neg hlu, if_neg (not_le.mpr hamt), hfrom, hto]
    simp only [if_neg hne]
    rw [hidx]
    simp [hown]

/-- Witness for C5: bob, registered but not an owner of alice's
account, is rejected by BALANCES, WITHDRAW and EXCHANGE without any
change to the snapshot. -/
theorem non_owner_rejected_witness :
    cmd_balances dbW "bob" "ACC1234" = (CmdResult.err "Not an owner", dbW) ∧
    cmd_deposit_withdraw dbW "bob" "WITHDRAW" "ACC1234" "USD" 5
      = (CmdResult.err "Not an owner", dbW) ∧
    cmd_exchange dbW "bob" "ACC1234" "USD" "EUR" 5
      = (CmdResult.err "Not an owner", dbW) := by
  have h := non_owner_rejected dbW "bob" "ACC1234" 0 (by decide) rfl (by decide)
  exact ⟨h.1,
    h.2.1 "WITHDRAW" "USD" Currency.USD 5 (by norm_num) rfl,
    h.2.2 "USD" "EUR" Currency.USD Currency.EUR 5 (by norm_num) rfl rfl
      (by decide)⟩

/-! ## C6: save/load round trip -/

theorem load_users_phase :
    ∀ (us : List User) (db0 : DB),
      db0.users.length + us.length ≤ MAX_USERS →
      List.foldl db_load_step db0 (us.map save_user)
        = { db0 with users := db0.users ++ us } := by
  intro us
  induction us with
  | nil =>
    intro db0 _
    simp
  | cons u us ih =>
    intro db0 hcap
    have hstep : db_load_step db0 (save_user u)
        = { db0 with users := db0.users ++ [u] } := by
      simp only [save_user, db_load_step]
      rw [if_neg (by simp only [List.length_cons] at hcap; omega)]
    simp only [List.map_cons, List.foldl_cons, hstep]
    rw [ih { db0 with users := db0.users ++ [u] }
      (by simp [List.length_append] at hcap ⊢; omega)]
    simp

theorem load_accs_phase :
    ∀ (as2 : List Account) (db0 : DB),
      db0.accounts.length + as2.length ≤ MAX_ACCOUNTS →
      (∀ a ∈ as2, a.owners.length ≤ MAX_OWNERS) →
      List.foldl db_load_step db0 (as2.map save_account)
        = { db0 with accounts := db0.accounts ++ as2.map round_account } := by
  intro as2
  induction as2 with
  | nil =>
    intro db0 _ _
    simp
  | cons a as2 ih =>
    intro db0 hcap howners
    have hjoint : ((if a.isJoint then "JOINT" else "IND") == "JOINT") = a.isJoint := by
      cases a.isJoint <;> rfl
    have htake :
        ((if a.owners.isEmpty then ["-"] else a.owners).take
          (min (a.owners.length : Int) (MAX_OWNERS : Int)).toNat) = a.owners := by
      by_cases hemp : a.owners.isEmpty
      · rw [if_pos hemp]
        rw [List.isEmpty_iff] at hemp
        rw [hemp]
        simp
      · rw [if_neg hemp]
        have hlen : a.owners.length ≤ MAX_OWNERS :=
          howners a (List.mem_cons_self a as2)
        have : (min (a.owners.length : Int) (MAX_OWNERS : Int)).toNat
            = a.owners.length := by
          simp only [MAX_OWNERS] at hlen ⊢
          omega
        rw [this, List.take_length]
    have hstep : db_load_step db0 (save_account a)
        = { db0 with accounts := db0.accounts ++ [round_account a] } := by
      simp only [save_account, db_load_step]
      rw [if_neg (by simp only [List.length_cons] at hcap; omega)]
      rw [hjoint, htake]
      rfl
    simp only [List.map_cons, List.foldl_cons, hstep]
    rw [ih { db0 with accounts := db0.accounts ++ [round_account a] }
      (by simp [List.length_append] at hcap ⊢; omega)
      (fun x hx => howners x (List.mem_cons_of_mem a hx))]
    simp

theorem wf_db_load_step (db : DB) (l : FileLine) (h : WfDB db) :
    WfDB (db_load_step db l) := by
  obtain ⟨hu, hacc, how⟩ := h
  cases l with
  | userLine u p =>
    simp only [db_load_step]
    split
    · exact ⟨hu, hacc, how⟩
    · refine ⟨?_, hacc, how⟩
      simp only [List.length_append, List.length_singleton]
      rename_i hcap
      simp only [MAX_USERS] at hcap ⊢
      omega
  | accLine id ty oc toks b0 b1 b2 =>
    simp only [db_load_step]
    split
    · exact ⟨hu, hacc, how⟩
    · refine ⟨hu, ?_, ?_⟩
      · simp only [List.length_append, List.length_singleton]
        rename_i hcap
        simp only [MAX_ACCOUNTS] at hcap ⊢
        omega
      · intro a ha2
        rcases List.mem_append.mp ha2 with h1 | h1
        · exact how a h1
        · rcases List.mem_singleton.mp h1 with rfl
          simp only [List.length_take]
          simp only [MAX_OWNERS]
          omega
  | badLine =>
    exact ⟨hu, hacc, how⟩

theorem wf_db_load (lines : List FileLine) : WfDB (db_load lines) := by
  have hgen : ∀ (ls : List FileLine) (db0 : DB), WfDB db0 →
      WfDB (List.foldl db_load_step db0 ls) := by
    intro ls
    induction ls with
    | nil => intro db0 h; exact h
    | cons l ls ih =>
      intro db0 h
      exact ih (db_load_step db0 l) (wf_db_load_step db0 l h)
  refine hgen lines { users := [], accounts := [] } ?_
  refine ⟨by simp [MAX_USERS], by simp [MAX_ACCOUNTS], ?_⟩
  intro a ha
  simp at ha

/-- C6: loading any store file, saving the loaded snapshot and loading
it back yields exactly the same users and exactly the same accounts up
to two-decimal rounding of each balance. -/
theorem save_load_roundtrip (lines : List FileLine) :
    (db_load (db_save (db_load lines))).users = (db_load lines).users ∧
    (db_load (db_save (db_load lines))).accounts
      = (db_load lines).accounts.map round_account := by
  obtain ⟨hu, hacc, how⟩ := wf_db_load lines
  have h1 : db_load (db_save (db_load lines))
      = List.foldl db_load_step
          (List.foldl db_load_step { users := [], accounts := [] }
            ((db_load lines).users.map save_user))
          ((db_load lines).accounts.map save_account) := by
    simp only [db_load, db_save, List.foldl_append]
  rw [h1, load_users_phase (db_load lines).users { users := [], accounts := [] }
    (by simpa using hu)]
  rw [load_accs_phase (db_load lines).accounts _ (by simpa using hacc) how]
  simp

/-! ## C7: CREATE_ACCOUNT owner rules -/

theorem collect_owners_all_registered (db : DB) :
    ∀ (toks : List String) (k : Nat),
      (∀ o ∈ toks.take (MAX_OWNERS - k), user_index db o ≠ none) →
      collect_owners db toks k = Except.ok (toks.take (MAX_OWNERS - k)) := by
  intro toks
  induction toks with
  | nil =>
    intro k _
    simp [collect_owners]
  | cons t rest ih =>
    intro k h
    simp only [collect_owners]
    by_cases hk : k < MAX_OWNERS
    · rw [if_pos hk]
      have h5k : MAX_OWNERS - k = (MAX_OWNERS - (k + 1)) + 1 := by
        simp only [MAX_OWNERS] at hk ⊢
        omega
      have htake : (t :: rest).take (MAX_OWNERS - k)
          = t :: rest.take (MAX_OWNERS - (k + 1)) := by
        rw [h5k, List.take_succ_cons]
      have ht : ¬ user_index db t = none := by
        refine h t ?_
        rw [htake]
        exact List.mem_cons_self t _
      rw [if_neg ht]
      rw [ih (k + 1) (fun o ho => h o (by rw [htake]; exact List.mem_cons_of_mem t ho))]
      rw [htake]
    · rw [if_neg hk]
      have h50 : MAX_OWNERS - k = 0 := by
        simp only [MAX_OWNERS] at hk ⊢
        omega
      rw [h50]
      simp

theorem collect_owners_missing (db : DB) :
    ∀ (toks : List String) (k : Nat),
      (∃ o ∈ toks.take (MAX_OWNERS - k), user_index db o = none) →
      collect_owners db toks k
        = Except.error "One or more owners do not exist (REGISTER them first)" := by
  intro toks
  induction toks with
  | nil =>
    intro k h
    simp at h
  | cons t rest ih =>
    intro k h
    simp only [collect_owners]
    by_cases hk : k < MAX_OWNERS
    · rw [if_pos hk]
      by_cases ht : user_index db t = none
      · rw [if_pos ht]
      · rw [if_neg ht]
        have h5k : MAX_OWNERS - k = (MAX_OWNERS - (k + 1)) + 1 := by
          simp only [MAX_OWNERS] at hk ⊢
          omega
        obtain ⟨o, ho, hnone⟩ := h
        rw [h5k, List.take_succ_cons] at ho
        rcases List.mem_cons.mp ho with rfl | ho2
        · exact absurd hnone ht
        · rw [ih (k + 1) ⟨o, ho2, hnone⟩]
    · exfalso
      have h50 : MAX_OWNERS - k = 0 := by
        simp only [MAX_OWNERS] at hk ⊢
        omega
      rw [h50] at h
      simp at h

theorem create_account_after_gen (db : DB) (lu ty : String)
    (toks : List String) (rands : Nat → Nat) (id : String)
    (hlu : ¬ lu = "")
    (htyOK : ¬ (ty ≠ "IND" ∧ ty ≠ "JOINT"))
    (hcap : ¬ MAX_ACCOUNTS ≤ db.accounts.length)
    (hgen : gen_account_id db rands = some id) :
    cmd_create_account db lu ty toks rands
      = (match collect_owners db toks 0 with
         | Except.error e => (CmdResult.err e, db)
         | Except.ok owners =>
           if owners.length = 0 then (CmdResult.err "ownersCSV is empty", db)
           else if ¬ (ty = "JOINT" : Bool) ∧ owners.length ≠ 1 then
             (CmdResult.err "IND account must have exactly 1 owner", db)
           else if ¬ (ty = "JOINT" : Bool) ∧ owners.headD "" ≠ lu then
             (CmdResult.err "IND account owner must be the logged-in user", db)
           else if (ty = "JOINT" : Bool) ∧ ¬ owners.contains lu then
             (CmdResult.err "JOINT account must include logged-in user among owners",
              db)
           else
             (CmdResult.ok ("Created " ++ id),
              { db with accounts := db.accounts ++
                  [{ id := id, isJoint := (ty = "JOINT" : Bool),
                     owners := owners, bal := ⟨0, 0, 0⟩ }] })) := by
  simp only [cmd_create_account]
  rw [if_neg hlu, if_neg htyOK, if_neg hcap, hgen]

theorem create_account_collect_err (db : DB) (lu ty : String)
    (toks : List String) (rands : Nat → Nat) (id e : String)
    (hlu : ¬ lu = "")
    (htyOK : ¬ (ty ≠ "IND" ∧ ty ≠ "JOINT"))
    (hcap : ¬ MAX_ACCOUNTS ≤ db.accounts.length)
    (hgen : gen_account_id db rands = some id)
    (hcoll : collect_owners db toks 0 = Except.error e) :
    cmd_create_account db lu ty toks rands = (CmdResult.err e, db) := by
  rw [create_account_after_gen db lu ty toks rands id hlu htyOK hcap hgen, hcoll]

theorem create_account_collect_ok (db : DB) (lu ty : String)
    (toks : List String) (rands : Nat → Nat) (id : String)
    (owners : List String)
    (hlu : ¬ lu = "")
    (htyOK : ¬ (ty ≠ "IND" ∧ ty ≠ "JOINT"))
    (hcap : ¬ MAX_ACCOUNTS ≤ db.accounts.length)
    (hgen : gen_account_id db rands = some id)
    (hcoll : collect_owners db toks 0 = Except.ok owners) :
    cmd_create_account db lu ty toks rands
      = (if owners.length = 0 then (CmdResult.err "ownersCSV is empty", db)
         else if ¬ (ty = "JOINT" : Bool) ∧ owners.length ≠ 1 then
           (CmdResult.err "IND account must have exactly 1 owner", db)
         else if ¬ (ty = "JOINT" : Bool) ∧ owners.headD "" ≠ lu then
           (CmdResult.err "IND account owner must be the logged-in user", db)
         else if (ty = "JOINT" : Bool) ∧ ¬ owners.contains lu then
           (CmdResult.err "JOINT account must include logged-in user among owners",
            db)
         else
           (CmdResult.ok ("Created " ++ id),
            { db with accounts := db.accounts ++
                [{ id := id, isJoint := (ty = "JOINT" : Bool),
                   owners := owners, bal := ⟨0, 0, 0⟩ }] })) := by
  rw [create_account_after_gen db lu ty toks rands id hlu htyOK hcap hgen, hcoll]

/-- C7 (amended): a successful CREATE_ACCOUNT creates an account whose
owners are the first ≤5 comma tokens, all registered, with IND accounts
owned exactly by the caller and JOINT accounts including the caller; an
unregistered owner among the *first five* tokens, an empty token list,
an IND list (after truncation to five) other than `[caller]`, or a
JOINT list whose first five tokens exclude the caller is rejected with
an error and no change.  Tokens after the fifth are silently ignored,
so an unregistered owner in position six or later does not cause a
rejection (this is the correction to the claim). -/
theorem create_account_owner_rules
    (db : DB) (lu ty : String) (toks : List String) (rands : Nat → Nat)
    (id : String)
    (hlu : ¬ lu = "")
    (hty : ty = "IND" ∨ ty = "JOINT")
    (hcap : db.accounts.length < MAX_ACCOUNTS)
    (hgen : gen_account_id db rands = some id) :
    ((cmd_create_account db lu ty toks rands).1
        = CmdResult.ok ("Created " ++ id) →
      ((∀ o ∈ toks.take MAX_OWNERS, user_index db o ≠ none) ∧
       1 ≤ (toks.take MAX_OWNERS).length ∧
       (toks.take MAX_OWNERS).length ≤ MAX_OWNERS ∧
       (ty = "IND" → toks.take MAX_OWNERS = [lu]) ∧
       (ty = "JOINT" → lu ∈ toks.take MAX_OWNERS) ∧
       (cmd_create_account db lu ty toks rands).2
         = { db with accounts := db.accounts ++
             [{ id := id, isJoint := (ty = "JOINT" : Bool),
                owners := toks.take MAX_OWNERS, bal := ⟨0, 0, 0⟩ }] })) ∧
    ((∃ o ∈ toks.take MAX_OWNERS, user_index db o = none) →
      cmd_create_account db lu ty toks rands
        = (CmdResult.err "One or more owners do not exist (REGISTER them first)",
           db)) ∧
    (toks = [] →
      cmd_create_account db lu ty toks rands
        = (CmdResult.err "ownersCSV is empty", db)) ∧
    ((∀ o ∈ toks.take MAX_OWNERS, user_index db o ≠ none) → ¬ toks = [] →
      ty = "IND" → ¬ toks.take MAX_OWNERS = [lu] →
      ∃ m, cmd_create_account db lu ty toks rands = (CmdResult.err m, db)) ∧
    ((∀ o ∈ toks.take MAX_OWNERS, user_index db o ≠ none) → ¬ toks = [] →
      ty = "JOINT" → ¬ lu ∈ toks.take MAX_OWNERS →
      cmd_create_account db lu ty toks rands
        = (CmdResult.err "JOINT account must include logged-in user among owners",
           db)) := by
  have htyOK : ¬ (ty ≠ "IND" ∧ ty ≠ "JOINT") := by
    rcases hty with h | h <;> simp [h]
  have hcap2 : ¬ MAX_ACCOUNTS ≤ db.accounts.length := not_le.mpr hcap
  have hlen5 : (toks.take MAX_OWNERS).length ≤ MAX_OWNERS := by
    rw [List.length_take]
    omega
  refine ⟨?_, ?_, ?_, ?_, ?_⟩
  · -- (a) success characterization
    intro hok
    by_cases hall : ∀ o ∈ toks.take MAX_OWNERS, user_index db o ≠ none
    case neg =>
      exfalso
      push_neg at hall
      obtain ⟨o, ho, hnone⟩ := hall
      rw [create_account_collect_err db lu ty toks rands id _ hlu htyOK hcap2 hgen
        (collect_owners_missing db toks 0
          (by rw [Nat.sub_zero]; exact ⟨o, ho, hnone⟩))] at hok
      simp at hok
    case pos =>
      have hco := collect_owners_all_registered db toks 0
        (by rw [Nat.sub_zero]; exact hall)
      rw [Nat.sub_zero] at hco
      have hred := create_account_collect_ok db lu ty toks rands id
        (toks.take MAX_OWNERS) hlu htyOK hcap2 hgen hco
      rw [hred] at hok
      by_cases h0 : (toks.take MAX_OWNERS).length = 0
      · rw [if_pos h0] at hok
        simp at hok
      rw [if_neg h0] at hok
      rcases hty with hI | hJ
      · subst hI
        by_cases h1 : (toks.take MAX_OWNERS).length = 1
        case neg =>
          rw [if_pos ⟨by decide, h1⟩] at hok
          simp at hok
        obtain ⟨w, hw⟩ := List.length_eq_one.mp h1
        by_cases h2 : (toks.take MAX_OWNERS).headD "" = lu
        case neg =>
          rw [if_neg (fun hc => hc.2 h1), if_pos ⟨by decide, h2⟩] at hok
          simp at hok
        have hwlu : w = lu := by
          rw [hw] at h2
          exact h2
        subst hwlu
        refine ⟨hall, by omega, hlen5, fun _ => hw, ?_, ?_⟩
        · intro hcon
          exact absurd hcon (by decide)
        · rw [hred, if_neg h0, if_neg (fun hc => hc.2 h1),
            if_neg (fun hc => hc.2 h2),
            if_neg (fun hc => absurd hc.1 (by decide))]
      · subst hJ
        by_cases hmem : (toks.take MAX_OWNERS).contains lu
        case neg =>
          rw [if_neg (fun hc => hc.1 (by decide)),
            if_neg (fun hc => hc.1 (by decide)),
            if_pos ⟨by decide, hmem⟩] at hok
          simp at hok
        refine ⟨hall, by omega, hlen5, ?_, fun _ => List.elem_iff.mp hmem, ?_⟩
        · intro hcon
          exact absurd hcon (by decide)
        · rw [hred, if_neg h0, if_neg (fun hc => hc.1 (by decide)),
            if_neg (fun hc => hc.1 (by decide)),
            if_neg (fun hc => hc.2 hmem)]
  · -- (b) unregistered owner among the first five tokens
    intro hmissing
    exact create_account_collect_err db lu ty toks rands id _ hlu htyOK hcap2 hgen
      (collect_owners_missing db toks 0 (by rw [Nat.sub_zero]; exact hmissing))
  · -- (c) empty token list
    intro h
    subst h
    rw [create_account_collect_ok db lu ty [] rands id [] hlu htyOK hcap2 hgen rfl]
    rfl
  · -- (d) IND with a truncated list other than [caller]
    intro hall hne hI htk
    subst hI
    have hco := collect_owners_all_registered db toks 0
      (by rw [Nat.sub_zero]; exact hall)
    rw [Nat.sub_zero] at hco
    have hred := create_account_collect_ok db lu "IND" toks rands id
      (toks.take MAX_OWNERS) hlu htyOK hcap2 hgen hco
    have h0 : ¬ (toks.take MAX_OWNERS).length = 0 := by
      rw [List.length_take]
      have := List.length_pos.mpr hne
      simp only [MAX_OWNERS]
      omega
    rw [hred, if_neg h0]
    by_cases h1 : (toks.take MAX_OWNERS).length = 1
    · obtain ⟨w, hw⟩ := List.length_eq_one.mp h1
      have hh : ¬ (toks.take MAX_OWNERS).headD "" = lu := by
        rw [hw]
        intro hcon
        apply htk
        have hwl : w = lu := hcon
        rw [hw, hwl]
      rw [if_neg (fun hc => hc.2 h1), if_pos ⟨by decide, hh⟩]
      exact ⟨_, rfl⟩
    · rw [if_pos ⟨by decide, h1⟩]
      exact ⟨_, rfl⟩
  · -- (e) JOINT whose first five tokens exclude the caller
    intro hall hne hJ hmem
    subst hJ
    have hco := collect_owners_all_registered db toks 0
      (by rw [Nat.sub_zero]; exact hall)
    rw [Nat.sub_zero] at hco
    have hred := create_account_collect_ok db lu "JOINT" toks rands id
      (toks.take MAX_OWNERS) hlu htyOK hcap2 hgen hco
    have h0 : ¬ (toks.take MAX_OWNERS).length = 0 := by
      rw [List.length_take]
      have := List.length_pos.mpr hne
      simp only [MAX_OWNERS]
      omega
    rw [hred, if_neg h0, if_neg (fun hc => hc.1 (by decide)),
      if_neg (fun hc => hc.1 (by decide)),
      if_pos ⟨by decide, fun hc => hmem (List.elem_iff.mp hc)⟩]

/-- Five registered users for the CREATE_ACCOUNT scenarios. -/
def dbJ : DB :=
  { users := [⟨"u1", "p"⟩, ⟨"u2", "p"⟩, ⟨"u3", "p"⟩, ⟨"u4", "p"⟩, ⟨"u5", "p"⟩],
    accounts := [] }

/-- An owner list with six entries whose sixth owner is unregistered. -/
def toksJ : List String := ["u1", "u2", "u3", "u4", "u5", "ghost"]

/-- Counterexample to C7 as stated: `ghost` is not a registered user
and appears in the owner list, yet CREATE_ACCOUNT succeeds, because
the parsing loop stops after `MAX_OWNERS` tokens and never examines
the sixth one. -/
theorem create_account_sixth_owner_unchecked :
    user_index dbJ "ghost" = none ∧
    "ghost" ∈ toksJ ∧
    (cmd_create_account dbJ "u1" "JOINT" toksJ (fun _ => 0)).1
      = CmdResult.ok "Created ACC1000" ∧
    (cmd_create_account dbJ "u1" "JOINT" toksJ (fun _ => 0)).2
      = { dbJ with accounts :=
            [⟨"ACC1000", true, ["u1", "u2", "u3", "u4", "u5"], ⟨0, 0, 0⟩⟩] } :=
  ⟨rfl, by decide, rfl, rfl⟩

/-- Witness for C7 (amended): an unregistered owner within the first
five tokens is rejected with no change to the snapshot. -/
theorem create_account_owner_rules_witness :
    cmd_create_account dbJ "u1" "JOINT" ["ghost"] (fun _ => 0)
      = (CmdResult.err "One or more owners do not exist (REGISTER them first)",
         dbJ) :=
  (create_account_owner_rules dbJ "u1" "JOINT" ["ghost"] (fun _ => 0) "ACC1000"
    (by decide) (Or.inr rfl) (by decide) rfl).2.1 ⟨"ghost", by decide, rfl⟩

/-! ## C8: bounded account-id generation -/

theorem gen_tries_some_fresh (db : DB) (rands : Nat → Nat) :
    ∀ (fuel tries : Nat) (id : String),
      gen_tries db rands tries fuel = some id →
      account_index db id = none ∧
      ∃ n, 1000 ≤ n ∧ n ≤ 9999 ∧ id = "ACC" ++ toString n := by
  intro fuel
  induction fuel with
  | zero =>
    intro tries id h
    simp [gen_tries] at h
  | succ fuel ih =>
    intro tries id h
    simp only [gen_tries] at h
    by_cases hfree :
        account_index db ("ACC" ++ toString (1000 + rands tries % 9000)) = none
    · rw [if_pos hfree] at h
      rcases Option.some.inj h with rfl
      refine ⟨hfree, 1000 + rands tries % 9000, by omega, ?_, rfl⟩
      have := Nat.mod_lt (rands tries) (show 0 < 9000 by norm_num)
      omega
    · rw [if_neg hfree] at h
      exact ih (tries + 1) id h

theorem gen_tries_exhausted (db : DB) (rands : Nat → Nat) :
    ∀ (fuel tries : Nat),
      (∀ i, i < fuel →
        ¬ account_index db
            ("ACC" ++ toString (1000 + rands (tries + i) % 9000)) = none) →
      gen_tries db rands tries fuel = none := by
  intro fuel
  induction fuel with
  | zero =>
    intro tries _
    rfl
  | succ fuel ih =>
    intro tries h
    simp only [gen_tries]
    rw [if_neg (by simpa using h 0 (by omega))]
    refine ih (tries + 1) ?_
    intro i hi
    have := h (i + 1) (by omega)
    rw [show tries + 1 + i = tries + (i + 1) from by omega]
    exact this

/-- C8: a generated account id always has the fixed short numeric
format `ACC<1000..9999>` and does not collide with any id in the
loaded snapshot; generation tries at most 10000 candidates — if every
one of those candidates collides it returns failure — and on that
failure CREATE_ACCOUNT stops with the distinct error
`Could not generate account id`, leaving the snapshot unchanged. -/
theorem gen_account_id_bounded (db : DB) (rands : Nat → Nat) (lu : String)
    (toks : List String) :
    (∀ id, gen_account_id db rands = some id →
      account_index db id = none ∧
      ∃ n, 1000 ≤ n ∧ n ≤ 9999 ∧ id = "ACC" ++ toString n) ∧
    ((∀ i, i < 10000 →
        ¬ account_index db ("ACC" ++ toString (1000 + rands i % 9000)) = none) →
      gen_account_id db rands = none) ∧
    (gen_account_id db rands = none → ¬ lu = "" →
      db.accounts.length < MAX_ACCOUNTS →
      cmd_create_account db lu "IND" toks rands
        = (CmdResult.err "Could not generate account id", db)) := by
  refine ⟨?_, ?_, ?_⟩
  · intro id h
    exact gen_tries_some_fresh db rands 10000 0 id h
  · intro h
    exact gen_tries_exhausted db rands 10000 0 (fun i hi => by simpa using h i hi)
  · intro hnone hlu hcap
    simp only [cmd_create_account]
    rw [if_neg hlu, if_neg (by simp), if_neg (not_le.mpr hcap), hnone]

/-- Witness for C8: on the concrete snapshot the first candidate is
fresh, in range, and correctly formatted. -/
theorem gen_account_id_bounded_witness :
    account_index dbW "ACC1000" = none ∧
    ∃ n, 1000 ≤ n ∧ n ≤ 9999 ∧ "ACC1000" = "ACC" ++ toString n :=
  (gen_account_id_bounded dbW (fun _ => 0) "alice" []).1 "ACC1000" rfl

/-! ## C9 and C10: session-state transitions -/

theorem cmd_login_eq_none (db : DB) (u p lu : String)
    (h : user_index db u = none) :
    cmd_login db u p lu = (CmdResult.err "No such user", lu) := by
  simp only [cmd_login, h]

theorem cmd_login_eq_wrong (db : DB) (u p lu : String) (idx : Nat)
    (h : user_index db u = some idx)
    (hp : ¬ (db.users.getD idx defaultUser).password = p) :
    cmd_login db u p lu = (CmdResult.err "Wrong password", lu) := by
  simp only [cmd_login, h]
  rw [if_pos hp]

theorem cmd_login_eq_ok (db : DB) (u p lu : String) (idx : Nat)
    (h : user_index db u = some idx)
    (hp : (db.users.getD idx defaultUser).password = p) :
    cmd_login db u p lu = (CmdResult.ok "Logged in", u) := by
  simp only [cmd_login, h]
  rw [if_neg (fun hc => hc hp)]

/-- C9: REGISTER never touches the session of the connection that
issued it; the session string changes only when the command is a LOGIN
that answers `OK Logged in`; and REGISTER with a taken username or a
full user table answers an error with the user set unchanged. -/
theorem register_no_authentication (db : DB) (lu : String)
    (rands : Nat → Nat) (u p : String) :
    (dispatch db lu rands (Cmd.register u p)).2.2 = lu ∧
    (∀ c : Cmd, (dispatch db lu rands c).2.2 = lu ∨
      (∃ u2 p2, c = Cmd.login u2 p2 ∧
        (dispatch db lu rands c).1 = CmdResult.ok "Logged in")) ∧
    (¬ user_index db u = none →
      cmd_register db u p = (CmdResult.err "User already exists", db)) ∧
    (user_index db u = none → MAX_USERS ≤ db.users.length →
      cmd_register db u p = (CmdResult.err "User limit reached", db)) := by
  refine ⟨rfl, ?_, ?_, ?_⟩
  · intro c
    cases c with
    | register u2 p2 => exact Or.inl rfl
    | create_account ty toks => exact Or.inl rfl
    | balances accid => exact Or.inl rfl
    | deposit accid curS amount => exact Or.inl rfl
    | withdraw accid curS amount => exact Or.inl rfl
    | exchange accid fromS toS amount => exact Or.inl rfl
    | login u2 p2 =>
      cases hu : user_index db u2 with
      | none =>
        left
        simp only [dispatch]
        rw [cmd_login_eq_none db u2 p2 lu hu]
      | some idx =>
        by_cases hp : (db.users.getD idx defaultUser).password = p2
        · right
          refine ⟨u2, p2, rfl, ?_⟩
          simp only [dispatch]
          rw [cmd_login_eq_ok db u2 p2 lu idx hu hp]
        · left
          simp only [dispatch]
          rw [cmd_login_eq_wrong db u2 p2 lu idx hu hp]
  · intro h
    simp only [cmd_register]
    rw [if_pos h]
  · intro h1 h2
    simp only [cmd_register]
    rw [if_neg (fun hc => hc h1), if_pos h2]

/-- Witness for C9: registering the taken name `alice` fails with the
user table unchanged, and a REGISTER leaves the session string as it
was. -/
theorem register_no_authentication_witness :
    (dispatch dbW "" (fun _ => 0) (Cmd.register "alice" "x")).2.2 = "" ∧
    cmd_register dbW "alice" "x" = (CmdResult.err "User already exists", dbW) := by
  have h := register_no_authentication dbW "" (fun _ => 0) "alice" "x"
  exact ⟨h.1, h.2.2.1 (by decide)⟩

/-- C10: a failed LOGIN (unknown user or wrong password) leaves the
session string exactly as it was — an authenticated session stays bound
to the same user — while a successful LOGIN rebinds the session to the
newly supplied username. -/
theorem login_session_transitions (db : DB) (u p lu : String) :
    (user_index db u = none →
      cmd_login db u p lu = (CmdResult.err "No such user", lu)) ∧
    (∀ idx, user_index db u = some idx →
      ¬ (db.users.getD idx defaultUser).password = p →
      cmd_login db u p lu = (CmdResult.err "Wrong password", lu)) ∧
    (∀ idx, user_index db u = some idx →
      (db.users.getD idx defaultUser).password = p →
      cmd_login db u p lu = (CmdResult.ok "Logged in", u)) :=
  ⟨fun h => cmd_login_eq_none db u p lu h,
   fun idx h hp => cmd_login_eq_wrong db u p lu idx h hp,
   fun idx h hp => cmd_login_eq_ok db u p lu idx h hp⟩

/-- Witness for C10: on the concrete snapshot, a wrong password leaves
the previously authenticated session bound to bob, and a correct login
rebinds it to alice. -/
theorem login_session_transitions_witness :
    cmd_login dbW "alice" "bad" "bob" = (CmdResult.err "Wrong password", "bob") ∧
    cmd_login dbW "alice" "pw1" "bob" = (CmdResult.ok "Logged in", "alice") := by
  have h := login_session_transitions dbW "alice" "bad" "bob"
  have h2 := login_session_transitions dbW "alice" "pw1" "bob"
  exact ⟨h.2.1 0 rfl (by decide), h2.2.2 0 rfl rfl⟩
